import Mathlib

/-!
# Verification of the Pg `<random>` engines (src/stl/random.h)

Shallow embedding of the four pseudo-random number engines of the
repository: `linear_congruential_engine`, `xorshift128_engine`,
`subtract_with_carry_engine` and the `discard_block_engine` adaptor.

Machine integers are modelled as `Nat` with explicit reduction modulo
`2 ^ 64`: the named engine instantiations use `uint_fast32_t` and
`uint_fast64_t`, which are both 64-bit types on LP64 platforms, and the
buffer indices use `std::size_t` (also 64 bits there).  Unsigned C++
subtraction `a - b` on 64-bit operands is `(a + 2^64 - b) % 2^64`;
a cast to the signed `make_signed` type is negative exactly when the
unsigned value is at least `2 ^ 63`.
-/

namespace Pg

/-- `2 ^ 64`, the number of values of the 64-bit unsigned types. -/
def U64 : Nat := 2 ^ 64

/-- 64-bit unsigned wrap-around subtraction `a - b` for `a b < U64`. -/
def usub (a b : Nat) : Nat := (a + U64 - b % U64) % U64

/-- Pointwise update of a buffer modelled as a function `Nat → Nat`. -/
def upd (f : Nat → Nat) (k a : Nat) : Nat → Nat :=
  fun j => if j = k then a else f j

theorem upd_same (f : Nat → Nat) (k a : Nat) : upd f k a k = a := by
  simp [upd]

theorem upd_other (f : Nat → Nat) (k a j : Nat) (h : j ≠ k) :
    upd f k a j = f j := by
  simp [upd, h]

/-! ## linear_congruential_engine

`template<class UIntType, UIntType a, UIntType c, UIntType m>`.
The engine's single state register is `lcg_`.  The template parameters
`a`, `c`, `m` are passed explicitly to each function below.
-/

/-- `linear_congruential_engine::default_seed = 1`. -/
def lcg_default_seed : Nat := 1

/-- `linear_congruential_engine::_seed(value)`:
`value % m == 0 && c % m == 0 ? default_seed : value % m`. -/
def lcg_seed (c m value : Nat) : Nat :=
  if value % m = 0 ∧ c % m = 0 then lcg_default_seed else value % m

/-- `linear_congruential_engine::operator()`:
`lcg_ = (a * lcg_ + c) % m`, the product and sum computed in the 64-bit
unsigned result type and hence wrapped modulo `2 ^ 64`. -/
def lcg_next (a c m x : Nat) : Nat := ((a * x + c) % U64) % m

/-- `linear_congruential_engine::max()` is `m - 1`. -/
def lcg_max (m : Nat) : Nat := m - 1

/-- `minstd_rand = linear_congruential_engine<uint_fast32_t, 48271, 0, 2147483647>`:
its advancement function. -/
def minstd_next (x : Nat) : Nat := lcg_next 48271 0 2147483647 x

/-- `minstd_rand` seeding (used both by `seed` and by the explicit-seed
constructor, which initializes `lcg_` with `_seed(value)`). -/
def minstd_seed (v : Nat) : Nat := lcg_seed 0 2147483647 v

/-- The `k`-th output (1-indexed) of a `minstd_rand` constructed with
seed `v`: the state after `k` calls to `operator()`, which returns the
new state. -/
def minstd_out (v k : Nat) : Nat := minstd_next^[k] (minstd_seed v)

/-! ## xorshift128_engine

`template<class UIntType>`; the word width `N` of `UIntType` is a
parameter of the model.  The state is the 4-element buffer `buf_` (a
function used at indices `0..3`) and the `std::size_t` index `n_`,
which `operator()` increments without reducing modulo `state_size`. -/

/-- `xorshift128_engine::state_size = 4`. -/
def x_state_size : Nat := 4

/-- `xorshift128_engine` state: `buf_` and `n_`. -/
structure XorState where
  buf : Nat → Nat
  n : Nat

/-- The static default seed buffer
`Seeds = \x7b 88675123, 123456789, 362436069, 521288629 \x7d`. -/
def xorSeeds : Nat → Nat :=
  fun j =>
    if j = 0 then 88675123
    else if j = 1 then 123456789
    else if j = 2 then 362436069
    else if j = 3 then 521288629
    else 0

/-- The default-constructed `xorshift128_engine`: `buf_(Seeds), n_()`. -/
def xorDefault : XorState := ⟨xorSeeds, 0⟩

/-- `xorshift128_engine::operator()` for word width `N`:
`x = buf_[++n_ % 4]`, `w = buf_[(n_ - 1) % 4]`, `t = x ^ (x << 11)`,
and the value `(w ^ (w >> 19)) ^ (t ^ (t >> 8))` is stored at
`buf_[n_ % 4]` and returned.  `++n_` wraps modulo `2 ^ 64`
(`std::size_t`); the shift `x << 11` wraps modulo `2 ^ N`. -/
def xorStep (N : Nat) (st : XorState) : Nat × XorState :=
  let n2 := (st.n + 1) % U64
  let x := st.buf (n2 % x_state_size)
  let w := st.buf (usub n2 1 % x_state_size)
  let t := Nat.xor x ((x * 2 ^ 11) % 2 ^ N)
  let out := Nat.xor (Nat.xor w (w / 2 ^ 19)) (Nat.xor t (t / 2 ^ 8))
  (out, ⟨upd st.buf (n2 % x_state_size) out, n2⟩)

/-- State-only advancement of `xorshift128_engine`. -/
def xorStepS (N : Nat) (st : XorState) : XorState := (xorStep N st).2

/-- `xorshift128_engine::seed(value)`: `buf_[n_] = value`.  The index
`n_` is used unreduced; `std::array::operator[]` is unchecked, so an
index outside `0..3` is an out-of-bounds write, modelled as `none`. -/
def xorSeedOp (value : Nat) (st : XorState) : Option XorState :=
  if st.n < x_state_size then some ⟨upd st.buf st.n value, st.n⟩ else none

/-- `xorshift128_engine::max()` for word width `N`:
`numeric_limits<result_type>::max() - 1`. -/
def xor_max (N : Nat) : Nat := (2 ^ N - 1) - 1

/-- `xorshift128_engine::min()`. -/
def xor_min : Nat := 0

/-! ## subtract_with_carry_engine

`template<class UIntType, std::size_t w, std::size_t s, std::size_t r>`.
The state is the value buffer `X_`, the carry buffer `cy_` (both arrays
of `r` elements, modelled as functions used at indices `0..r-1`) and the
monotonically increasing `std::size_t` index `i_`.  All index
subtractions `(i - s) % r`, `(i - r) % r`, `(i - 1) % r` are performed
on `std::size_t`, i.e. they wrap modulo `2 ^ 64` before the reduction
modulo `r`. -/

/-- `subtract_with_carry_engine` state: `X_`, `cy_` and `i_`. -/
structure SwcState where
  X : Nat → Nat
  cy : Nat → Nat
  i : Nat

/-- `subtract_with_carry_engine::M = ((UIntType)1 << r)` — note the
shift count is the long lag `r`, not the word size `w`; the shift wraps
in the 64-bit result type. -/
def swcM (r : Nat) : Nat := (2 ^ r) % U64

/-- `subtract_with_carry_engine::max()` is `M - 1`. -/
def swc_max (r : Nat) : Nat := swcM r - 1

/-- `subtract_with_carry_engine::default_seed = 19780503U`. -/
def swc_default_seed : Nat := 19780503

/-- `subtract_with_carry_engine::sN(i)`:
`X_[(i - s) % r] - X_[(i - r) % r] - cy_[(i - 1) % r]`, the
subtractions performed in the 64-bit unsigned result type and the index
arithmetic in `std::size_t`. -/
def swcSN (s r : Nat) (X cy : Nat → Nat) (i : Nat) : Nat :=
  usub (usub (X (usub i s % r)) (X (usub i r % r))) (cy (usub i 1 % r))

/-- The carry test `(make_signed<result_type>)(x) < 0`: a 64-bit
unsigned value reinterpreted as signed is negative iff it is at least
`2 ^ 63`. -/
def swcCarry (x : Nat) : Nat := if 2 ^ 63 ≤ x then 1 else 0

/-- `subtract_with_carry_engine::operator()`:
`x = sN(i_)`; `cy_[i_ % r] = x < 0 (signed) ? 1 : 0`;
`X_[i_++ % r] = x % M` is stored and returned. -/
def swcStep (s r : Nat) (st : SwcState) : Nat × SwcState :=
  let x := swcSN s r st.X st.cy st.i
  let cy2 := upd st.cy (st.i % r) (swcCarry x)
  let out := x % swcM r
  let X2 := upd st.X (st.i % r) out
  (out, ⟨X2, cy2, (st.i + 1) % U64⟩)

/-- State-only advancement of `subtract_with_carry_engine`. -/
def swcStepS (s r : Nat) (st : SwcState) : SwcState := (swcStep s r st).2

/-- One iteration of the loop in `subtract_with_carry_engine::seed`:
`X_[i] = lcg(); cy_[i] = sN(i) < 0 (signed) ? 1 : 0`, threading the
`minstd_rand` state.  The index `i` runs over `0..r-1`; `sN(i)` is
evaluated on the partially rebuilt buffers. -/
def swcSeedIter (s r : Nat) (p : Nat × SwcState) (k : Nat) : Nat × SwcState :=
  let lcg2 := minstd_next p.1
  let X2 := upd p.2.X k lcg2
  let x := swcSN s r X2 p.2.cy k
  let cy2 := upd p.2.cy k (swcCarry x)
  (lcg2, ⟨X2, cy2, p.2.i⟩)

/-- `subtract_with_carry_engine::seed(value)`: constructs
`minstd_rand lcg(value)` and runs the loop
`for (i = 0; i < r; ++i) \x7b X_[i] = lcg(); cy_[i] = ... \x7d`.
The index `i_` is not modified. -/
def swcSeed (s r : Nat) (value : Nat) (st : SwcState) : SwcState :=
  ((List.range r).foldl (swcSeedIter s r) (minstd_seed value, st)).2

/-- The explicit-seed constructor: `X_(), cy_(), i_()` (all zero), then
`seed(value)`. -/
def swcConstruct (s r : Nat) (value : Nat) : SwcState :=
  swcSeed s r value ⟨fun _ => 0, fun _ => 0, 0⟩

/-- `ranlux24_base = subtract_with_carry_engine<uint_fast32_t, 24, 10, 24>`:
word size, short lag, long lag. -/
def ranlux24_w : Nat := 24
def ranlux24_s : Nat := 10
def ranlux24_r : Nat := 24

/-- `ranlux48_base = subtract_with_carry_engine<uint_fast64_t, 48, 5, 12>`:
word size, short lag, long lag. -/
def ranlux48_w : Nat := 48
def ranlux48_s : Nat := 5
def ranlux48_r : Nat := 12

/-! ## discard(z)

Every engine defines `discard(unsigned long long z)` as the loop
`while (z--) (void)operator()();`.  It is modelled once, generically in
the state-only advancement function, and instantiated per engine. -/

/-- The loop `while (z--) (void)operator()();` over a state-only
advancement function `f`. -/
def engineDiscard {σ : Type} (f : σ → σ) : Nat → σ → σ
  | 0, st => st
  | z + 1, st => engineDiscard f z (f st)

theorem engineDiscard_eq_iterate {σ : Type} (f : σ → σ) :
    ∀ (z : Nat) (st : σ), engineDiscard f z st = f^[z] st := by
  intro z
  induction z with
  | zero => intro st; rfl
  | succ z ih =>
    intro st
    rw [engineDiscard, ih, Function.iterate_succ_apply]

/-- `linear_congruential_engine::discard`. -/
def lcgDiscard (a c m : Nat) (z : Nat) (st : Nat) : Nat :=
  engineDiscard (lcg_next a c m) z st

/-- `xorshift128_engine::discard`. -/
def xorDiscard (N : Nat) (z : Nat) (st : XorState) : XorState :=
  engineDiscard (xorStepS N) z st

/-- `subtract_with_carry_engine::discard`. -/
def swcDiscard (s r : Nat) (z : Nat) (st : SwcState) : SwcState :=
  engineDiscard (swcStepS s r) z st

/-! ## discard_block_engine

`template<class Engine, std::size_t P, std::size_t R>`.  The state is
the wrapped base engine `engine_` and the use counter `n_`
(`std::size_t`).  The base engine is modelled generically as a state
type `σ` with an advancement function `step : σ → Nat × σ`. -/

/-- `discard_block_engine` state: `engine_` and `n_`. -/
structure DbState (σ : Type) where
  engine : σ
  n : Nat

/-- The state-only advancement induced by a value-and-state advancement
function: the effect of `(void)operator()()`. -/
def stepSOf {σ : Type} (step : σ → Nat × σ) : σ → σ := fun e => (step e).2

/-- `discard_block_engine::operator()`:
`if (n_ >= used_block) \x7b engine_.discard(block_size - used_block);
n_ = 0; \x7d ++n_; return engine_();`.  The count
`block_size - used_block` is computed in `std::size_t`, wrapping modulo
`2 ^ 64`. -/
def dbStep {σ : Type} (step : σ → Nat × σ) (P R : Nat)
    (st : DbState σ) : Nat × DbState σ :=
  let st1 : DbState σ :=
    if R ≤ st.n then
      ⟨engineDiscard (stepSOf step) (usub P R) st.engine, 0⟩
    else st
  let n2 := (st1.n + 1) % U64
  let v := step st1.engine
  (v.1, ⟨v.2, n2⟩)

/-- State-only advancement of `discard_block_engine`. -/
def dbStepS {σ : Type} (step : σ → Nat × σ) (P R : Nat)
    (st : DbState σ) : DbState σ := (dbStep step P R st).2

/-- `discard_block_engine::discard`. -/
def dbDiscard {σ : Type} (step : σ → Nat × σ) (P R : Nat)
    (z : Nat) (st : DbState σ) : DbState σ :=
  engineDiscard (dbStepS step P R) z st

/-- `discard_block_engine::seed(value)`: `engine_.seed(value);` — the
base engine is reseeded with the base engine's `seed` member, and `n_`
is not touched. -/
def dbSeed {σ : Type} (baseSeed : Nat → σ → σ) (value : Nat)
    (st : DbState σ) : DbState σ :=
  ⟨baseSeed value st.engine, st.n⟩

/-- `discard_block_engine::operator==`: `lhs.base() == rhs.base()`,
delegating to the base engine's equality. -/
def dbEq {σ : Type} (baseEq : σ → σ → Bool)
    (lhs rhs : DbState σ) : Bool :=
  baseEq lhs.engine rhs.engine

/-- `discard_block_engine::operator!=`: `!(lhs == rhs)`. -/
def dbNe {σ : Type} (baseEq : σ → σ → Bool)
    (lhs rhs : DbState σ) : Bool :=
  !(dbEq baseEq lhs rhs)

/-- `minstd_rand::operator()` as a value-and-state step (the returned
value is the new state). -/
def minstdStep (x : Nat) : Nat × Nat := (minstd_next x, minstd_next x)

/-- `minstd_rand::operator==` compares the single state register. -/
def minstdEq (x y : Nat) : Bool := x == y

/-- The recurrence `x = (a*x + c) mod m` as written in the spec
("direct recurrence evaluation", exact arithmetic). -/
def lcgRecSpec (a c m x : Nat) : Nat := (a * x + c) % m

/-- The explicit-seed constructor
`linear_congruential_engine(result_type value) : lcg_(_seed(value))`. -/
def lcg_construct (c m value : Nat) : Nat := lcg_seed c m value

/-! ## Theorems -/

/-- C1 (counter-evidence): the code sets `M = ((UIntType)1 << r)`,
shifting by the long lag `r` instead of the word size `w`, contradicting
the comment `M = 2**w` above it.  For
`ranlux48_base = subtract_with_carry_engine<uint_fast64_t, 48, 5, 12>`
this makes `max()` equal to `2^12 - 1 = 4095`, not `2^48 - 1`, and the
advancement reduces values modulo `2^12`, not `2^48`.  (For
`ranlux24_base` the slip is masked because `w = r = 24`.) -/
theorem C1_swc_modulus_bug :
    swc_max ranlux48_r = 4095 ∧
    swc_max ranlux48_r ≠ 2 ^ ranlux48_w - 1 ∧
    swcM ranlux48_r = 2 ^ 12 ∧
    swc_max ranlux24_r = 2 ^ ranlux24_w - 1 := by
  refine ⟨rfl, by decide, rfl, rfl⟩

/-- C2 (counter-evidence): `xorshift128_engine::operator()` increments
`n_` without reducing it modulo `state_size`, so after four advancement
calls on a default-constructed engine `n_ = 4`; `seed(value)` then
writes `buf_[n_]`, one past the end of the 4-element buffer — an
out-of-bounds write, modelled as `none`. -/
theorem C2_xorshift_seed_oob :
    ((xorStepS 32)^[4] xorDefault).n = 4 ∧
    xorSeedOp 1 ((xorStepS 32)^[4] xorDefault) = none := by
  exact ⟨rfl, rfl⟩

/-- The buffer `\x7b 0xFFFFE000, 0, 1, 1 \x7d` used to build a
`xorshift128_engine<uint32_t>` through the range constructor (its
`assert` passes: the sum is nonzero). -/
def xorWideState : XorState :=
  ⟨fun j => if j = 0 then 4294959104 else if j = 1 then 0 else 1, 0⟩

/-- C3 (counter-evidence): a `xorshift128_engine<uint32_t>` constructed
from the range `\x7b 0xFFFFE000, 0, 1, 1 \x7d` returns
`2^32 - 1 = 4294967295` on its first advancement, which exceeds
`max() = numeric_limits<uint32_t>::max() - 1 = 4294967294` — the
bounds contract `min() <= x <= max()` and the documentation of `max()`
("the largest possible value in the output range") are violated. -/
theorem C3_xorshift_exceeds_max :
    (xorStep 32 xorWideState).1 = 4294967295 ∧
    xor_max 32 = 4294967294 ∧
    ¬((xorStep 32 xorWideState).1 ≤ xor_max 32) := by
  refine ⟨rfl, rfl, by decide⟩

/-- C5 (counterexample): the third output of a `minstd_rand`
(`a = 48271`, `c = 0`, `m = 2147483647`) seeded with 1 is
`1291394886`, not `1335424460` as the claim states. -/
theorem C5_third_output_counterexample :
    minstd_out 1 3 = 1291394886 ∧ minstd_out 1 3 ≠ 1335424460 := by
  exact ⟨rfl, by decide⟩

/-- C5 (amended): a `minstd_rand` seeded with 1 produces
`48271, 182605794, 1291394886` as its first three outputs, each equal
to direct evaluation of the recurrence `x = (a*x + c) mod m`. -/
theorem C5_first_three_outputs :
    minstd_out 1 1 = 48271 ∧
    minstd_out 1 2 = 182605794 ∧
    minstd_out 1 3 = 1291394886 ∧
    minstd_out 1 1 = lcgRecSpec 48271 0 2147483647 1 ∧
    minstd_out 1 2 = lcgRecSpec 48271 0 2147483647 (lcgRecSpec 48271 0 2147483647 1) ∧
    minstd_out 1 3 = lcgRecSpec 48271 0 2147483647
      (lcgRecSpec 48271 0 2147483647 (lcgRecSpec 48271 0 2147483647 1)) := by
  exact ⟨rfl, rfl, rfl, rfl, rfl, rfl⟩

/-- C6: `linear_congruential_engine::seed(v)` (and the explicit-seed
constructor, which initializes the state with the same `_seed`) sets
the state to `v mod m`, except that when `v mod m = 0` and
`c mod m = 0` it substitutes the default seed value 1. -/
theorem C6_lcg_seed (c m v : Nat) :
    (v % m = 0 ∧ c % m = 0 → lcg_seed c m v = 1) ∧
    (¬(v % m = 0 ∧ c % m = 0) → lcg_seed c m v = v % m) ∧
    lcg_construct c m v = lcg_seed c m v := by
  refine ⟨fun h => ?_, fun h => ?_, rfl⟩
  · simp [lcg_seed, h, lcg_default_seed]
  · simp [lcg_seed, h]

/-- Invariant of the seeding loop of `subtract_with_carry_engine::seed`:
after `k` iterations the LCG state has advanced `k` times, the first
`k` entries of `X_` hold the successive LCG outputs, the remaining
entries of `X_` are untouched, and `i_` is untouched. -/
theorem swcSeedFold_spec (s r : Nat) (p : Nat × SwcState) :
    ∀ k : Nat,
      ((List.range k).foldl (swcSeedIter s r) p).1 = minstd_next^[k] p.1 ∧
      (∀ j, j < k →
        ((List.range k).foldl (swcSeedIter s r) p).2.X j =
          minstd_next^[j + 1] p.1) ∧
      (∀ j, k ≤ j →
        ((List.range k).foldl (swcSeedIter s r) p).2.X j = p.2.X j) ∧
      ((List.range k).foldl (swcSeedIter s r) p).2.i = p.2.i := by
  intro k
  induction k with
  | zero =>
    exact ⟨rfl, fun j h => absurd h (Nat.not_lt_zero j), fun j _ => rfl, rfl⟩
  | succ k ih =>
    obtain ⟨h1, h2, h3, h4⟩ := ih
    rw [List.range_succ, List.foldl_append]
    simp only [List.foldl_cons, List.foldl_nil]
    refine ⟨?_, ?_, ?_, ?_⟩
    · show minstd_next ((List.range k).foldl (swcSeedIter s r) p).1 = _
      rw [h1]
      exact (Function.iterate_succ_apply' minstd_next k p.1).symm
    · intro j hj
      show upd ((List.range k).foldl (swcSeedIter s r) p).2.X k
        (minstd_next ((List.range k).foldl (swcSeedIter s r) p).1) j = _
      rcases Nat.lt_succ_iff_lt_or_eq.mp hj with h | h
      · rw [upd_other _ _ _ _ (Nat.ne_of_lt h), h2 j h]
      · subst h
        rw [upd_same, h1]
        exact (Function.iterate_succ_apply' minstd_next j p.1).symm
    · intro j hj
      show upd ((List.range k).foldl (swcSeedIter s r) p).2.X k
        (minstd_next ((List.range k).foldl (swcSeedIter s r) p).1) j = _
      rw [upd_other _ _ _ _ (Nat.ne_of_gt (Nat.lt_of_succ_le hj)),
        h3 j (Nat.le_of_succ_le hj)]
    · exact h4

/-- C4 (amended): `subtract_with_carry_engine::seed(v)` reassigns all
`r` entries of `X_` deterministically from the `minstd_rand` seeded
with `v` — the resulting `X_` buffer depends only on `v`, so any two
engines of the same parameterization that call `seed(v)` with the same
`v` hold identical `X_` buffers.  The index `i_` is left unchanged by
`seed`; the carries are derived from the partially rebuilt buffers,
which still contain pre-seed entries, so identical `cy_` buffers and
identical subsequent outputs are only guaranteed for engines whose
pre-seed states agree. -/
theorem C4_swc_seed_amended (s r v : Nat) (st st' : SwcState) :
    (∀ j, j < r →
      (swcSeed s r v st).X j = minstd_out v (j + 1) ∧
      (swcSeed s r v st).X j = (swcSeed s r v st').X j) ∧
    (swcSeed s r v st).i = st.i := by
  have H := swcSeedFold_spec s r (minstd_seed v, st) r
  have H' := swcSeedFold_spec s r (minstd_seed v, st') r
  refine ⟨fun j hj => ⟨?_, ?_⟩, H.2.2.2⟩
  · show ((List.range r).foldl (swcSeedIter s r) (minstd_seed v, st)).2.X j = _
    rw [H.2.1 j hj]
    rfl
  · show ((List.range r).foldl (swcSeedIter s r) (minstd_seed v, st)).2.X j =
      ((List.range r).foldl (swcSeedIter s r) (minstd_seed v, st')).2.X j
    rw [H.2.1 j hj, H'.2.1 j hj]

/-- C4 witness: the amended theorem at `ranlux24_base` parameters,
seed value 19780503, a zeroed pre-seed state and a distinct pre-seed
state, at buffer index 0. -/
theorem C4_swc_seed_amended_witness :
    ((0 : Nat) < 24 ∧
      (swcSeed 10 24 19780503 ⟨fun _ => 0, fun _ => 0, 0⟩).X 0 =
        minstd_out 19780503 1 ∧
      (swcSeed 10 24 19780503 ⟨fun _ => 0, fun _ => 0, 0⟩).X 0 =
        (swcSeed 10 24 19780503 ⟨fun _ => 5, fun _ => 1, 7⟩).X 0) ∧
    (swcSeed 10 24 19780503 ⟨fun _ => 0, fun _ => 0, 0⟩).i = 0 :=
  ⟨⟨by decide,
    (C4_swc_seed_amended 10 24 19780503 ⟨fun _ => 0, fun _ => 0, 0⟩
      ⟨fun _ => 5, fun _ => 1, 7⟩).1 0 (by decide)⟩,
    (C4_swc_seed_amended 10 24 19780503 ⟨fun _ => 0, fun _ => 0, 0⟩
      ⟨fun _ => 5, fun _ => 1, 7⟩).2⟩

/-- A freshly constructed `ranlux24_base` with the default seed
19780503: the constructor zeroes the state, then calls
`seed(19780503)`. -/
def swcC4Fresh : SwcState := swcConstruct 10 24 19780503

/-- A `ranlux24_base` that, starting from `swcC4Fresh`, advanced once
and then called `seed(19780503)` again — same seed value, different
pre-seed state. -/
def swcC4Re : SwcState := swcSeed 10 24 19780503 (swcStepS 10 24 swcC4Fresh)

set_option maxRecDepth 100000 in
/-- C4 (counterexample): two `ranlux24_base` engines that each call
`seed(19780503)` — one on the freshly zeroed state, one after a single
advancement — end with different carry buffers (`cy_[1]` is 0 versus 1)
and produce different next outputs, refuting the claim that two engines
calling `seed(v)` with the same `v` hold identical `X`/`cy` buffers and
produce identical subsequent output.  (The loop in `seed` evaluates
`sN(i)` on partially rebuilt buffers whose stale entries come from the
pre-seed state, and `i_` is not reset.) -/
theorem C4_swc_seed_not_deterministic :
    swcC4Fresh.cy 1 = 0 ∧ swcC4Re.cy 1 = 1 ∧
    swcC4Fresh.cy 1 ≠ swcC4Re.cy 1 ∧
    (swcStep 10 24 swcC4Fresh).1 = 2832164 ∧
    (swcStep 10 24 swcC4Re).1 = 10695519 ∧
    (swcStep 10 24 swcC4Fresh).1 ≠ (swcStep 10 24 swcC4Re).1 := by
  have e1 : swcC4Fresh.cy 1 = 0 := by rfl
  have e2 : swcC4Re.cy 1 = 1 := by rfl
  have e3 : (swcStep 10 24 swcC4Fresh).1 = 2832164 := by rfl
  have e4 : (swcStep 10 24 swcC4Re).1 = 10695519 := by rfl
  exact ⟨e1, e2, by rw [e1, e2]; decide, e3, e4, by rw [e3, e4]; decide⟩

/-- C6 witness: the degenerate case at `v = 2147483647`, `c = 0`,
`m = 2147483647` and a regular case at `v = 5`. -/
theorem C6_lcg_seed_witness :
    ((2147483647 % 2147483647 = 0 ∧ 0 % 2147483647 = 0) ∧
      lcg_seed 0 2147483647 2147483647 = 1) ∧
    (¬(5 % 2147483647 = 0 ∧ 0 % 2147483647 = 0) ∧
      lcg_seed 0 2147483647 5 = 5 % 2147483647) := by
  refine ⟨⟨by decide, (C6_lcg_seed 0 2147483647 2147483647).1 (by decide)⟩,
    ⟨by decide, (C6_lcg_seed 0 2147483647 5).2.1 (by decide)⟩⟩

/-- C8: for each of the four engines, `discard(z)` — the loop
`while (z--) (void)operator()();` — advances the state exactly as `z`
advancement calls do, so `discard(z)` followed by one advancement
returns the same value and leaves the same final state as `z + 1`
advancement calls keeping only the last result. -/
theorem C8_discard_equivalence :
    (∀ a c m z st, lcgDiscard a c m z st = (lcg_next a c m)^[z] st ∧
      lcg_next a c m (lcgDiscard a c m z st) = (lcg_next a c m)^[z + 1] st) ∧
    (∀ N z st, xorDiscard N z st = (xorStepS N)^[z] st ∧
      (xorStep N (xorDiscard N z st)).1 = (xorStep N ((xorStepS N)^[z] st)).1 ∧
      (xorStep N (xorDiscard N z st)).2 = (xorStepS N)^[z + 1] st) ∧
    (∀ s r z st, swcDiscard s r z st = (swcStepS s r)^[z] st ∧
      (swcStep s r (swcDiscard s r z st)).1 =
        (swcStep s r ((swcStepS s r)^[z] st)).1 ∧
      (swcStep s r (swcDiscard s r z st)).2 = (swcStepS s r)^[z + 1] st) ∧
    (∀ (σ : Type) (step : σ → Nat × σ) (P R : Nat) (z : Nat) (st : DbState σ),
      dbDiscard step P R z st = (dbStepS step P R)^[z] st ∧
      (dbStep step P R (dbDiscard step P R z st)).1 =
        (dbStep step P R ((dbStepS step P R)^[z] st)).1 ∧
      (dbStep step P R (dbDiscard step P R z st)).2 =
        (dbStepS step P R)^[z + 1] st) := by
  refine ⟨fun a c m z st => ⟨?_, ?_⟩, fun N z st => ⟨?_, ?_, ?_⟩,
    fun s r z st => ⟨?_, ?_, ?_⟩, fun σ step P R z st => ⟨?_, ?_, ?_⟩⟩ <;>
    simp [lcgDiscard, xorDiscard, swcDiscard, dbDiscard,
      engineDiscard_eq_iterate, Function.iterate_succ_apply',
      xorStepS, swcStepS, dbStepS]

/-- C9: `discard_block_engine::operator==` delegates to the wrapped
base engine's equality and ignores both use counters `n_`;
`operator!=` is its exact negation.  Instantiated with a
`minstd_rand` base, whose state is its single register, equality holds
exactly when the wrapped base engines' states are equal. -/
theorem C9_db_equality :
    (∀ (σ : Type) (baseEq : σ → σ → Bool) (e1 e2 : DbState σ),
      dbEq baseEq e1 e2 = baseEq e1.engine e2.engine ∧
      dbNe baseEq e1 e2 = !dbEq baseEq e1 e2) ∧
    (∀ (σ : Type) (baseEq : σ → σ → Bool) (b1 b2 : σ) (n1 n2 n3 n4 : Nat),
      dbEq baseEq ⟨b1, n1⟩ ⟨b2, n2⟩ = dbEq baseEq ⟨b1, n3⟩ ⟨b2, n4⟩) ∧
    (∀ e1 e2 : DbState Nat,
      (dbEq minstdEq e1 e2 = true ↔ e1.engine = e2.engine) ∧
      (dbNe minstdEq e1 e2 = false ↔ e1.engine = e2.engine)) := by
  refine ⟨fun σ baseEq e1 e2 => ⟨rfl, rfl⟩,
    fun σ baseEq b1 b2 n1 n2 n3 n4 => rfl,
    fun e1 e2 => ⟨?_, ?_⟩⟩ <;>
    simp [dbEq, dbNe, minstdEq]

/-- The `seed` member of `minstd_rand` viewed as a function of the seed
value and the pre-seed state: `lcg_ = _seed(value)`. -/
def minstdSeedFn : Nat → Nat → Nat := fun v _ => minstd_seed v

/-- A `discard_block_engine<minstd_rand, 4, 2>` freshly constructed
with seed 1: `engine_(Engine(1)), n_()`. -/
def dbC10A : DbState Nat := ⟨minstd_seed 1, 0⟩

/-- The same adaptor advanced once (so `n_ = 1`, mid-block) and then
reseeded with `seed(1)`. -/
def dbC10B : DbState Nat := dbSeed minstdSeedFn 1 (dbStepS minstdStep 4 2 dbC10A)

/-- C10: `discard_block_engine::seed` mutates only the wrapped base
engine and leaves the use counter `n_` unchanged.  Consequently an
adaptor reseeded mid-block (`dbC10B`, with `n_ = 1`) compares equal to
a freshly constructed adaptor seeded with the same value (`dbC10A`)
but produces a different subsequent output sequence: their second
outputs are 182605794 and 1914720637. -/
theorem C10_db_seed_frame :
    (∀ (σ : Type) (baseSeed : Nat → σ → σ) (v : Nat) (st : DbState σ),
      (dbSeed baseSeed v st).n = st.n ∧
      (dbSeed baseSeed v st).engine = baseSeed v st.engine) ∧
    dbC10B.n = 1 ∧
    dbEq minstdEq dbC10A dbC10B = true ∧
    (dbStep minstdStep 4 2 (dbStepS minstdStep 4 2 dbC10A)).1 = 182605794 ∧
    (dbStep minstdStep 4 2 (dbStepS minstdStep 4 2 dbC10B)).1 = 1914720637 ∧
    (dbStep minstdStep 4 2 (dbStepS minstdStep 4 2 dbC10A)).1 ≠
      (dbStep minstdStep 4 2 (dbStepS minstdStep 4 2 dbC10B)).1 := by
  have e1 : (dbStep minstdStep 4 2 (dbStepS minstdStep 4 2 dbC10A)).1 =
      182605794 := by rfl
  have e2 : (dbStep minstdStep 4 2 (dbStepS minstdStep 4 2 dbC10B)).1 =
      1914720637 := by rfl
  exact ⟨fun σ baseSeed v st => ⟨rfl, rfl⟩, rfl, rfl, e1, e2,
    by rw [e1, e2]; decide⟩

theorem usub_eq_sub (a b : Nat) (hb : b ≤ a) (ha : a < U64) :
    usub a b = a - b := by
  unfold usub
  rw [Nat.mod_eq_of_lt (lt_of_le_of_lt hb ha)]
  have h1 : a + U64 - b = U64 + (a - b) := by omega
  rw [h1, Nat.add_mod_left, Nat.mod_eq_of_lt (by omega)]

/-- `discard_block_engine::operator()` when the use counter has not yet
reached `used_block`: no values are discarded, the counter increments,
and the base engine advances once. -/
theorem dbStep_keep {σ : Type} (step : σ → Nat × σ) (P R : Nat)
    (e : σ) (t : Nat) (ht : t < R) (htU : t + 1 < U64) :
    dbStep step P R ⟨e, t⟩ = ((step e).1, ⟨(step e).2, t + 1⟩) := by
  simp [dbStep, Nat.not_le.mpr ht, Nat.mod_eq_of_lt htU]

/-- `discard_block_engine::operator()` when the use counter has reached
`used_block`: the base engine first discards `P - R` values, the
counter restarts at 1, and the base engine then advances once more. -/
theorem dbStep_flush {σ : Type} (step : σ → Nat × σ) (P R : Nat)
    (e : σ) (t : Nat) (hRt : R ≤ t) (hRP : R ≤ P) (hP : P < U64)
    (h1U : 1 < U64) :
    dbStep step P R ⟨e, t⟩ =
      ((step ((stepSOf step)^[P - R] e)).1,
        ⟨(step ((stepSOf step)^[P - R] e)).2, 1⟩) := by
  simp [dbStep, hRt, engineDiscard_eq_iterate, usub_eq_sub P R hRP hP,
    Nat.mod_eq_of_lt h1U]

/-- The state of a `discard_block_engine` after `m + 1` advancements
from a fresh adaptor: the base engine has advanced
`P * (m / R) + m % R + 1` times and the use counter is `m % R + 1`. -/
theorem dbState_after {σ : Type} (step : σ → Nat × σ) (P R : Nat)
    (hR : 0 < R) (hRP : R ≤ P) (hP : P + 1 < U64) (b0 : σ) :
    ∀ m : Nat,
      (dbStepS step P R)^[m + 1] ⟨b0, 0⟩ =
        ⟨(stepSOf step)^[P * (m / R) + m % R + 1] b0, m % R + 1⟩ := by
  have hPU : P < U64 := by omega
  have h1U : 1 < U64 := by omega
  intro m
  induction m with
  | zero =>
    show (dbStep step P R ⟨b0, 0⟩).2 = _
    rw [dbStep_keep step P R b0 0 hR (by omega)]
    simp [stepSOf]
  | succ m ih =>
    rw [Function.iterate_succ_apply', ih]
    have hmlt : m % R < R := Nat.mod_lt m hR
    have hdm := Nat.div_add_mod m R
    by_cases hcase : m % R + 1 < R
    · have hdm2 : (m + 1) / R = m / R ∧ (m + 1) % R = m % R + 1 :=
        (Nat.div_mod_unique hR).mpr ⟨by omega, hcase⟩
      have hdiv := hdm2.1
      have hmod := hdm2.2
      show (dbStep step P R ⟨_, m % R + 1⟩).2 = _
      rw [dbStep_keep step P R _ (m % R + 1) hcase (by omega), hmod, hdiv]
      have hK : P * (m / R) + (m % R + 1) + 1 =
          (P * (m / R) + m % R + 1) + 1 := by omega
      conv_rhs => rw [hK, Function.iterate_succ_apply']
      rfl
    · have heq : m % R + 1 = R := by omega
      have hdm2 : (m + 1) / R = m / R + 1 ∧ (m + 1) % R = 0 := by
        refine (Nat.div_mod_unique hR).mpr ⟨?_, hR⟩
        have h2 : R * (m / R + 1) = R * (m / R) + R := by ring
        omega
      have hdiv := hdm2.1
      have hmod := hdm2.2
      show (dbStep step P R ⟨_, m % R + 1⟩).2 = _
      rw [dbStep_flush step P R _ (m % R + 1) (Nat.le_of_eq heq.symm) hRP
        hPU h1U, hmod, hdiv]
      have hcount : (P - R) + (P * (m / R) + m % R + 1) =
          P * (m / R) + P := by omega
      have hcomp : (stepSOf step)^[P - R]
          ((stepSOf step)^[P * (m / R) + m % R + 1] b0) =
          (stepSOf step)^[P * (m / R) + P] b0 := by
        rw [← Function.iterate_add_apply, hcount]
      rw [hcomp]
      have hK : P * (m / R + 1) + 0 + 1 = (P * (m / R) + P) + 1 := by
        have h2 : P * (m / R + 1) = P * (m / R) + P := by ring
        omega
      conv_rhs => rw [hK, Function.iterate_succ_apply']
      rfl

/-- C7: from a fresh `discard_block_engine` with block size `P` and
used count `R` (`0 < R ≤ P`), the state after `m + 1` advancements has
the base engine advanced exactly `P * (m / R) + m % R + 1` times with
use counter `m % R + 1`, and the `(m + 1)`-th surfaced value is the
base engine's `(P * (m / R) + m % R + 1)`-th output.  The surfaced base
outputs are therefore exactly those whose (0-based) index modulo `P` is
below `R`: `R` values out of every consecutive block of `P` base
advancements are surfaced and the other `P - R` only advance the base
state.  Each advancement proceeds per `dbStep` (`dbStep_keep`,
`dbStep_flush`): when `n_ >= R` the base engine discards `P - R` values
and `n_` resets to 0 before the counter increments and the next base
value is produced. -/
theorem C7_db_cadence {σ : Type} (step : σ → Nat × σ) (P R : Nat)
    (hR : 0 < R) (hRP : R ≤ P) (hP : P + 1 < U64) (b0 : σ) (m : Nat) :
    (dbStepS step P R)^[m + 1] ⟨b0, 0⟩ =
      ⟨(stepSOf step)^[P * (m / R) + m % R + 1] b0, m % R + 1⟩ ∧
    (dbStep step P R ((dbStepS step P R)^[m] ⟨b0, 0⟩)).1 =
      (step ((stepSOf step)^[P * (m / R) + m % R] b0)).1 := by
  have hPU : P < U64 := by omega
  have h1U : 1 < U64 := by omega
  refine ⟨dbState_after step P R hR hRP hP b0 m, ?_⟩
  cases m with
  | zero =>
    show (dbStep step P R ⟨b0, 0⟩).1 =
      (step ((stepSOf step)^[P * (0 / R) + 0 % R] b0)).1
    rw [dbStep_keep step P R b0 0 hR (by omega)]
    have h0 : P * (0 / R) + 0 % R = 0 := by simp
    conv_rhs => rw [h0]
    rfl
  | succ m =>
    rw [dbState_after step P R hR hRP hP b0 m]
    have hmlt : m % R < R := Nat.mod_lt m hR
    have hdm := Nat.div_add_mod m R
    by_cases hcase : m % R + 1 < R
    · have hdm2 : (m + 1) / R = m / R ∧ (m + 1) % R = m % R + 1 :=
        (Nat.div_mod_unique hR).mpr ⟨by omega, hcase⟩
      have hdiv := hdm2.1
      have hmod := hdm2.2
      rw [dbStep_keep step P R _ (m % R + 1) hcase (by omega), hmod, hdiv]
      have hE : P * (m / R) + (m % R + 1) = P * (m / R) + m % R + 1 := by
        omega
      conv_rhs => rw [hE]
    · have heq : m % R + 1 = R := by omega
      have hdm2 : (m + 1) / R = m / R + 1 ∧ (m + 1) % R = 0 := by
        refine (Nat.div_mod_unique hR).mpr ⟨?_, hR⟩
        have h2 : R * (m / R + 1) = R * (m / R) + R := by ring
        omega
      have hdiv := hdm2.1
      have hmod := hdm2.2
      rw [dbStep_flush step P R _ (m % R + 1) (Nat.le_of_eq heq.symm) hRP
        hPU h1U, hmod, hdiv]
      have hcount : (P - R) + (P * (m / R) + m % R + 1) =
          P * (m / R) + P := by omega
      have hcomp : (stepSOf step)^[P - R]
          ((stepSOf step)^[P * (m / R) + m % R + 1] b0) =
          (stepSOf step)^[P * (m / R) + P] b0 := by
        rw [← Function.iterate_add_apply, hcount]
      rw [hcomp]
      have hK : P * (m / R + 1) + 0 = P * (m / R) + P := by
        have h2 : P * (m / R + 1) = P * (m / R) + P := by ring
        omega
      conv_rhs => rw [hK]

/-- C7 witness: `discard_block_engine<minstd_rand, 4, 2>` from base
state 1, after six advancements: the base engine has advanced
`4 * (5 / 2) + 5 % 2 + 1 = 10` times, the use counter is 2, and the
sixth surfaced value is the tenth base output. -/
theorem C7_db_cadence_witness :
    ((0 : Nat) < 2 ∧ (2 : Nat) ≤ 4 ∧ (4 : Nat) + 1 < U64) ∧
    ((dbStepS minstdStep 4 2)^[5 + 1] ⟨1, 0⟩ =
      ⟨(stepSOf minstdStep)^[4 * (5 / 2) + 5 % 2 + 1] 1, 5 % 2 + 1⟩ ∧
    (dbStep minstdStep 4 2 ((dbStepS minstdStep 4 2)^[5] ⟨1, 0⟩)).1 =
      (minstdStep ((stepSOf minstdStep)^[4 * (5 / 2) + 5 % 2] 1)).1) :=
  ⟨⟨by decide, by decide, by decide⟩,
    C7_db_cadence minstdStep 4 2 (by decide) (by decide) (by decide) 1 5⟩

end Pg
